import Mathlib

/-!
Verification development for the agentictrust gateway backend.

The definitions below are a shallow embedding of the Python sources:
* `agentictrust/backend/core/agent/engine.py` (agent Engine),
* `agentictrust/backend/data/models/agent.py` (Agent model),
* `agentictrust/backend/data/models/mcp.py` (MCP server model),
* `agentictrust/backend/bridge/server.py` (AgentAwareMCPBridge).

Machine-level integers are modelled as `Nat` reduced modulo `2 ^ 32`
where the source relies on 32-bit arithmetic (inside SHA-256).
Database reads are modelled through a `Store` record whose operations
return `Except DbErr _`, so that raising database exceptions is
representable; the honest instantiation `Store.ofDb` never fails.
-/

namespace AgenticTrust

/-! ## SHA-256 (model of `hashlib.sha256(...).hexdigest()`)

`Engine._hash_secret` and `Agent.verify_secret` both call
`hashlib.sha256(plaintext.encode()).hexdigest()`.  The library function is
embedded here in full (FIPS 180-4), operating on lists of byte values. -/

/-- Modulus for 32-bit words. -/
def M32 : Nat := 4294967296

/-- Right rotation of a 32-bit word by `n` bits. -/
def rotr32 (n x : Nat) : Nat := ((x >>> n) ||| (x <<< (32 - n))) % M32

/-- SHA-256 big sigma 0. -/
def bsig0 (x : Nat) : Nat := (rotr32 2 x) ^^^ (rotr32 13 x) ^^^ (rotr32 22 x)

/-- SHA-256 big sigma 1. -/
def bsig1 (x : Nat) : Nat := (rotr32 6 x) ^^^ (rotr32 11 x) ^^^ (rotr32 25 x)

/-- SHA-256 small sigma 0. -/
def ssig0 (x : Nat) : Nat := (rotr32 7 x) ^^^ (rotr32 18 x) ^^^ (x >>> 3)

/-- SHA-256 small sigma 1. -/
def ssig1 (x : Nat) : Nat := (rotr32 17 x) ^^^ (rotr32 19 x) ^^^ (x >>> 10)

/-- SHA-256 choose function (`not x` is `x ^^^ (M32 - 1)` on 32-bit words). -/
def chf (x y z : Nat) : Nat := (x &&& y) ^^^ ((x ^^^ (M32 - 1)) &&& z)

/-- SHA-256 majority function. -/
def majf (x y z : Nat) : Nat := (x &&& y) ^^^ (x &&& z) ^^^ (y &&& z)

/-- SHA-256 round constants (FIPS 180-4 table, written in decimal). -/
def K256 : List Nat :=
  [1116352408, 1899447441, 3049323471, 3921009573, 961987163,
   1508970993, 2453635748, 2870763221, 3624381080, 310598401,
   607225278, 1426881987, 1925078388, 2162078206, 2614888103,
   3248222580, 3835390401, 4022224774, 264347078, 604807628,
   770255983, 1249150122, 1555081692, 1996064986, 2554220882,
   2821834349, 2952996808, 3210313671, 3336571891, 3584528711,
   113926993, 338241895, 666307205, 773529912, 1294757372,
   1396182291, 1695183700, 1986661051, 2177026350, 2456956037,
   2730485921, 2820302411, 3259730800, 3345764771, 3516065817,
   3600352804, 4094571909, 275423344, 430227734, 506948616,
   659060556, 883997877, 958139571, 1322822218, 1537002063,
   1747873779, 1955562222, 2024104815, 2227730452, 2361852424,
   2428436474, 2756734187, 3204031479, 3329325298]

/-- SHA-256 initial hash value (decimal). -/
def H256init : List Nat :=
  [1779033703, 3144134277, 1013904242,
   2773480762, 1359893119, 2600822924,
   528734635, 1541459225]

/-- Big-endian 8-byte encoding of the bit length. -/
def lenBytes64 (n : Nat) : List Nat :=
  [(n >>> 56) % 256, (n >>> 48) % 256, (n >>> 40) % 256, (n >>> 32) % 256,
   (n >>> 24) % 256, (n >>> 16) % 256, (n >>> 8) % 256, n % 256]

/-- SHA-256 message padding: `0x80`, zeros to 56 mod 64, 8-byte bit length. -/
def sha256Pad (msg : List Nat) : List Nat :=
  let len := msg.length
  let padLen := (119 - (len % 64)) % 64
  msg ++ [0x80] ++ List.replicate padLen 0 ++ lenBytes64 (len * 8)

/-- Group bytes into big-endian 32-bit words. -/
def toWords32 : List Nat → List Nat
  | a :: b :: c :: d :: rest => (((a * 256 + b) * 256 + c) * 256 + d) :: toWords32 rest
  | _ => []

/-- Group a word list into 16-word blocks (the padded input is always a
multiple of 16 words, so the ragged final case never arises there). -/
def toBlocks16 : List Nat → List (List Nat)
  | w1 :: w2 :: w3 :: w4 :: w5 :: w6 :: w7 :: w8 ::
    w9 :: w10 :: w11 :: w12 :: w13 :: w14 :: w15 :: w16 :: rest =>
      [w1, w2, w3, w4, w5, w6, w7, w8, w9, w10, w11, w12, w13, w14, w15, w16]
        :: toBlocks16 rest
  | [] => []
  | ragged => [ragged]

/-- One step of the SHA-256 message-schedule extension. -/
def sha256Extend (w : List Nat) : List Nat :=
  let i := w.length
  let s0 := ssig0 (w.getD (i - 15) 0)
  let s1 := ssig1 (w.getD (i - 2) 0)
  w ++ [(w.getD (i - 16) 0 + s0 + w.getD (i - 7) 0 + s1) % M32]

/-- Full 64-word message schedule for one block. -/
def sha256Schedule (block : List Nat) : List Nat :=
  (List.range 48).foldl (fun w _ => sha256Extend w) block

/-- One SHA-256 compression round over the 8-word working state. -/
def sha256Round (s : List Nat) (kw : Nat × Nat) : List Nat :=
  let a := s.getD 0 0
  let b := s.getD 1 0
  let c := s.getD 2 0
  let d := s.getD 3 0
  let e := s.getD 4 0
  let f := s.getD 5 0
  let g := s.getD 6 0
  let hh := s.getD 7 0
  let t1 := (hh + bsig1 e + chf e f g + kw.1 + kw.2) % M32
  let t2 := (bsig0 a + majf a b c) % M32
  [(t1 + t2) % M32, a, b, c, (d + t1) % M32, e, f, g]

/-- Process one 16-word block against the running hash value. -/
def sha256Block (h0 : List Nat) (block : List Nat) : List Nat :=
  let s := ((K256.zip (sha256Schedule block))).foldl sha256Round h0
  (h0.zip s).map (fun p => (p.1 + p.2) % M32)

/-- SHA-256 of a byte list, as eight 32-bit words. -/
def sha256Words (msg : List Nat) : List Nat :=
  (toBlocks16 (toWords32 (sha256Pad msg))).foldl sha256Block H256init

/-- Big-endian bytes of a 32-bit word. -/
def word32Bytes (w : Nat) : List Nat :=
  [(w >>> 24) % 256, (w >>> 16) % 256, (w >>> 8) % 256, w % 256]

/-- SHA-256 digest bytes of a byte list. -/
def sha256Bytes (msg : List Nat) : List Nat :=
  ((sha256Words msg).map word32Bytes).flatten

/-- Lower-case hex digit. -/
def hexDigitChar (n : Nat) : Char :=
  if n < 10 then Char.ofNat (48 + n) else Char.ofNat (87 + n)

/-- Lower-case hex string of a byte list (model of `.hexdigest()`). -/
def bytesToHex (bs : List Nat) : String :=
  ⟨(bs.map (fun b => [hexDigitChar (b / 16), hexDigitChar (b % 16)])).flatten⟩

/-- UTF-8 encoding of one code point (model of `str.encode()`). -/
def utf8EncodeChar (c : Nat) : List Nat :=
  if c < 0x80 then [c]
  else if c < 0x800 then
    [0xC0 ||| (c >>> 6), 0x80 ||| (c &&& 0x3F)]
  else if c < 0x10000 then
    [0xE0 ||| (c >>> 12), 0x80 ||| ((c >>> 6) &&& 0x3F), 0x80 ||| (c &&& 0x3F)]
  else
    [0xF0 ||| (c >>> 18), 0x80 ||| ((c >>> 12) &&& 0x3F),
     0x80 ||| ((c >>> 6) &&& 0x3F), 0x80 ||| (c &&& 0x3F)]

/-- UTF-8 bytes of a string. -/
def strBytes (s : String) : List Nat :=
  (s.data.map (fun c => utf8EncodeChar c.toNat)).flatten

/-- Model of `hashlib.sha256(s.encode()).hexdigest()`. -/
def sha256hex (s : String) : String :=
  bytesToHex (sha256Bytes (strBytes s))

/-- Model of `hmac.compare_digest` on strings: the comparison checks the
lengths and then scans every character pair, accumulating the bitwise
difference with no early exit on the first mismatch (the constant-time
structure of the library comparison used by `Agent.verify_secret`). -/
def compareDigest (a b : String) : Bool :=
  (a.length == b.length) &&
    (((a.data.zip b.data).foldl (fun acc p => acc ||| (p.1.toNat ^^^ p.2.toNat)) 0) == 0)

/-! ## Errors

`core/exceptions.py` defines `NotFoundError(resource, identifier)` and
`DatabaseError(message)`; the bridge converts everything it raises into
`ValueError`s with distinct messages, modelled by distinct constructors of
`Bridge.BridgeError` below.  `DbErr` stands for an arbitrary exception
raised inside a database operation. -/

inductive EngineError where
  | notFound (resource identifier : String)
  | databaseError (message : String)
  deriving DecidableEq, Repr

inductive DbErr where
  | failure (message : String)
  deriving DecidableEq, Repr

inductive UpErr where
  | failure (message : String)
  deriving DecidableEq, Repr

/-! ## Data model (`data/models/agent.py`, `tool.py`, `resource.py`, `prompt.py`)

Only the columns the claims touch are carried; timestamp bookkeeping
columns with no bearing on any claim are omitted. -/

structure Agent where
  id : String
  client_id : String
  client_secret_hash : String
  name : Option String := none
  description : Option String := none
  allowed_tool_ids : List String := []
  allowed_resource_ids : List String := []
  allowed_prompt_ids : List String := []
  deriving DecidableEq, Repr

/-- Model of `Agent.verify_secret`: hash the plaintext with SHA-256 and
compare against the stored hash with `hmac.compare_digest`. -/
def Agent.verify_secret (a : Agent) (plaintext : String) : Bool :=
  compareDigest (sha256hex plaintext) a.client_secret_hash

/-- Convenience property `Agent.tools` (`allowed_tool_ids or []`). -/
def Agent.tools (a : Agent) : List String := a.allowed_tool_ids

/-- Convenience property `Agent.resources`. -/
def Agent.resources (a : Agent) : List String := a.allowed_resource_ids

/-- Convenience property `Agent.prompts`. -/
def Agent.prompts (a : Agent) : List String := a.allowed_prompt_ids

structure Tool where
  id : String
  mcp_id : String
  name : String
  description : Option String := none
  input_schema : String := ""
  deriving DecidableEq, Repr

structure Resource where
  id : String
  mcp_id : String
  uri : String
  name : String
  description : Option String := none
  mime_type : Option String := none
  deriving DecidableEq, Repr

structure Prompt where
  id : String
  mcp_id : String
  name : String
  description : Option String := none
  arguments : List String := []
  deriving DecidableEq, Repr

/-- Snapshot of the durable store's tables. -/
structure Db where
  agents : List Agent := []
  tools : List Tool := []
  resources : List Resource := []
  prompts : List Prompt := []
  deriving Repr

/-- Database session interface used by the bridge: each read either returns
rows or raises.  The honest instantiation `Store.ofDb` models a healthy
database; arbitrary instantiations model sessions whose reads fail. -/
structure Store where
  getAgent : String → Except DbErr (Option Agent)
  selectTools : List String → Except DbErr (List Tool)
  selectResources : List String → Except DbErr (List Resource)
  selectPrompts : List String → Except DbErr (List Prompt)

/-- Healthy store over a database snapshot: `getAgent` is
`select(Agent).where(Agent.id == aid)` and `selectTools` is
`select(Tool).where(Tool.id.in_(ids))` (row order of the table). -/
def Store.ofDb (db : Db) : Store where
  getAgent := fun aid => .ok (db.agents.find? (fun a => a.id == aid))
  selectTools := fun ids => .ok (db.tools.filter (fun t => decide (t.id ∈ ids)))
  selectResources := fun ids => .ok (db.resources.filter (fun r => decide (r.id ∈ ids)))
  selectPrompts := fun ids => .ok (db.prompts.filter (fun p => decide (p.id ∈ ids)))

/-! ## Agent Engine (`core/agent/engine.py`) -/

namespace Engine

/-- Model of `Engine._hash_secret`. -/
def hash_secret (secret : String) : String := sha256hex secret

/-- Model of the `select(Agent).where(Agent.client_id == cid)` lookup inside
`Engine.authenticate` (`scalar_one_or_none`; `client_id` is a unique column). -/
def find_agent_by_client_id (db : Db) (client_id : String) : Option Agent :=
  db.agents.find? (fun a => a.client_id == client_id)

/-- Model of `Engine.authenticate`: look up by client_id, raise
`NotFoundError("Agent", client_id)` when the row is absent or the secret
does not verify. -/
def authenticate (db : Db) (client_id secret : String) : Except EngineError Agent :=
  match find_agent_by_client_id db client_id with
  | none => .error (.notFound "Agent" client_id)
  | some agent =>
      if agent.verify_secret secret then .ok agent
      else .error (.notFound "Agent" client_id)

/-- Payload of `AgentCreate` (`schemas/agent.py`). -/
structure AgentCreate where
  name : Option String := none
  description : Option String := none
  tool_ids : List String := []
  resource_ids : List String := []
  prompt_ids : List String := []
  deriving Repr

/-- Payload of `AgentUpdate` (`schemas/agent.py`): all fields optional. -/
structure AgentUpdate where
  name : Option String := none
  description : Option String := none
  tool_ids : Option (List String) := none
  resource_ids : Option (List String) := none
  prompt_ids : Option (List String) := none
  deriving Repr

/-- Model of `Engine._verify_capability_ids`: for each kind, when the
payload supplies a non-empty ID list, select the matching rows and fail
with a `DatabaseError` when `set(provided) - set(found)` is non-empty. -/
def verify_capability_ids (db : Db) (payload : AgentCreate) : Except EngineError Unit :=
  let toolsFound := (db.tools.filter (fun t => decide (t.id ∈ payload.tool_ids))).map Tool.id
  let toolsMissing := payload.tool_ids.filter (fun i => decide (i ∉ toolsFound))
  if !payload.tool_ids.isEmpty && !toolsMissing.isEmpty then
    .error (.databaseError "Unknown tool IDs")
  else
    let resFound := (db.resources.filter (fun r => decide (r.id ∈ payload.resource_ids))).map Resource.id
    let resMissing := payload.resource_ids.filter (fun i => decide (i ∉ resFound))
    if !payload.resource_ids.isEmpty && !resMissing.isEmpty then
      .error (.databaseError "Unknown resource IDs")
    else
      let promFound := (db.prompts.filter (fun p => decide (p.id ∈ payload.prompt_ids))).map Prompt.id
      let promMissing := payload.prompt_ids.filter (fun i => decide (i ∉ promFound))
      if !payload.prompt_ids.isEmpty && !promMissing.isEmpty then
        .error (.databaseError "Unknown prompt IDs")
      else .ok ()

/-- Model of `Engine.register`.  The generated `uuid4` values (row id,
client_id, plaintext secret) are nondeterministic in the source and passed
here as explicit arguments; the database commit is modelled as succeeding.
Returns the new database, the persisted row, and the plaintext secret
returned once to the caller. -/
def register (db : Db) (payload : AgentCreate) (agent_id client_id client_secret : String) :
    Except EngineError (Db × Agent × String) :=
  match verify_capability_ids db payload with
  | .error e => .error e
  | .ok _ =>
      let secret_hash := hash_secret client_secret
      let agent : Agent := {
        id := agent_id
        client_id := client_id
        client_secret_hash := secret_hash
        name := payload.name
        description := payload.description
        allowed_tool_ids := payload.tool_ids
        allowed_resource_ids := payload.resource_ids
        allowed_prompt_ids := payload.prompt_ids }
      .ok ({ db with agents := db.agents ++ [agent] }, agent, client_secret)

/-- Model of `Engine.get`: select by primary key. -/
def get (db : Db) (agent_id : String) : Option Agent :=
  db.agents.find? (fun a => a.id == agent_id)

/-- Model of `Engine.update`: when any capability list is supplied,
re-validate the supplied lists (absent ones validated as `[]`), then
overwrite exactly the supplied fields and leave the rest unchanged. -/
def update (db : Db) (agent : Agent) (updates : AgentUpdate) : Except EngineError Agent :=
  let validation :=
    if updates.tool_ids.isSome || updates.resource_ids.isSome || updates.prompt_ids.isSome then
      verify_capability_ids db {
        tool_ids := updates.tool_ids.getD []
        resource_ids := updates.resource_ids.getD []
        prompt_ids := updates.prompt_ids.getD [] }
    else .ok ()
  match validation with
  | .error e => .error e
  | .ok _ =>
      .ok { agent with
        name := match updates.name with | some n => some n | none => agent.name
        description := match updates.description with | some d => some d | none => agent.description
        allowed_tool_ids := match updates.tool_ids with | some l => l | none => agent.allowed_tool_ids
        allowed_resource_ids := match updates.resource_ids with | some l => l | none => agent.allowed_resource_ids
        allowed_prompt_ids := match updates.prompt_ids with | some l => l | none => agent.allowed_prompt_ids }

/-- Model of `Engine.list_tools`: short-circuit to `[]` on an empty grant
list, otherwise `select(Tool).where(Tool.id.in_(agent.tools))`. -/
def list_tools (st : Store) (agent : Agent) : Except DbErr (List Tool) :=
  if agent.tools.isEmpty then .ok []
  else st.selectTools agent.tools

/-- Model of `Engine.list_resources`. -/
def list_resources (st : Store) (agent : Agent) : Except DbErr (List Resource) :=
  if agent.resources.isEmpty then .ok []
  else st.selectResources agent.resources

/-- Model of `Engine.list_prompts`. -/
def list_prompts (st : Store) (agent : Agent) : Except DbErr (List Prompt) :=
  if agent.prompts.isEmpty then .ok []
  else st.selectPrompts agent.prompts

end Engine

/-! ## Bridge (`bridge/server.py`, class `AgentAwareMCPBridge`)

Each protocol operation is a pure function of: the bound agent context
(`self._current_agent`), whether the upstream session group exists
(`self._upstream_group`), one store snapshot per database round-trip
(consecutive reads may observe different grant states, which is how a
concurrent revocation becomes visible between the two permission checks of
`call_tool`), the behaviour of the upstream forward, and the outcome of
the best-effort usage-recording step.  Each returns the result the caller
sees paired with the list of audit events persisted via `_log_event` (the
structured `data` payload of an event is abstracted to its `error_type`
discriminator). -/

namespace Bridge

inductive BridgeError where
  | noAgentOrUpstream
  | internalError (e : DbErr)
  | permissionDenied (tool : String)
  | permissionRevoked (tool : String)
  | upstreamTimeout (tool : String)
  | executionError (tool : String)
  | resourceNotPermitted (uri : String)
  | resourceReadFailed (uri : String)
  | promptNotPermitted (name : String)
  | promptGetFailed (name : String)
  deriving DecidableEq, Repr

/-- One audit record persisted by `_log_event` (`data/models/logs.py`). -/
structure LogEvent where
  event_type : String
  error_type : Option String := none
  severity : String := "info"
  deriving DecidableEq, Repr

/-- Model of `_get_agent_tools`: no bound agent yields `[]`; otherwise
re-fetch the agent row by id (fresh permissions) and delegate to
`Engine.list_tools`; a vanished agent row yields `[]`. -/
def get_agent_tools (current : Option Agent) (st : Store) : Except DbErr (List Tool) :=
  match current with
  | none => .ok []
  | some ag =>
      match st.getAgent ag.id with
      | .error e => .error e
      | .ok none => .ok []
      | .ok (some fresh) => Engine.list_tools st fresh

/-- Model of `_get_agent_resources`. -/
def get_agent_resources (current : Option Agent) (st : Store) : Except DbErr (List Resource) :=
  match current with
  | none => .ok []
  | some ag =>
      match st.getAgent ag.id with
      | .error e => .error e
      | .ok none => .ok []
      | .ok (some fresh) => Engine.list_resources st fresh

/-- Model of `_get_agent_prompts`. -/
def get_agent_prompts (current : Option Agent) (st : Store) : Except DbErr (List Prompt) :=
  match current with
  | none => .ok []
  | some ag =>
      match st.getAgent ag.id with
      | .error e => .error e
      | .ok none => .ok []
      | .ok (some fresh) => Engine.list_prompts st fresh

/-- Protocol descriptor shape of a tool (`mcp.types.Tool`). -/
structure MCPToolDescriptor where
  name : String
  description : Option String
  inputSchema : String
  deriving DecidableEq, Repr

def toolDescriptor (t : Tool) : MCPToolDescriptor :=
  { name := t.name, description := t.description, inputSchema := t.input_schema }

/-- Protocol descriptor shape of a resource (`mcp.types.Resource`). -/
structure MCPResourceDescriptor where
  uri : String
  name : String
  description : Option String
  mimeType : Option String
  deriving DecidableEq, Repr

def resourceDescriptor (r : Resource) : MCPResourceDescriptor :=
  { uri := r.uri, name := r.name, description := r.description, mimeType := r.mime_type }

/-- Protocol descriptor shape of a prompt (`mcp.types.Prompt`). -/
structure MCPPromptDescriptor where
  name : String
  description : Option String
  arguments : List String
  deriving DecidableEq, Repr

def promptDescriptor (p : Prompt) : MCPPromptDescriptor :=
  { name := p.name, description := p.description, arguments := p.arguments }

/-- Model of `AgentAwareMCPBridge.list_tools`: map the filtered rows to
protocol descriptors; any exception inside the `try` is swallowed into an
empty list. -/
def list_tools (current : Option Agent) (st : Store) : List MCPToolDescriptor :=
  match get_agent_tools current st with
  | .error _ => []
  | .ok ts => ts.map toolDescriptor

/-- Model of `AgentAwareMCPBridge.list_resources`. -/
def list_resources (current : Option Agent) (st : Store) : List MCPResourceDescriptor :=
  match get_agent_resources current st with
  | .error _ => []
  | .ok rs => rs.map resourceDescriptor

/-- Model of `AgentAwareMCPBridge.list_prompts`. -/
def list_prompts (current : Option Agent) (st : Store) : List MCPPromptDescriptor :=
  match get_agent_prompts current st with
  | .error _ => []
  | .ok ps => ps.map promptDescriptor

/-- One item of an upstream tool result's `content` list. -/
inductive ContentItem where
  | text (body : String)
  | image (data : String)
  | other (raw : String)
  deriving DecidableEq, Repr

structure ToolResult where
  content : List ContentItem
  deriving DecidableEq, Repr

/-- Behaviour of one upstream `call_tool` forward: how many seconds the
upstream takes before completing, and what it completes with. -/
structure UpstreamCall where
  duration : Nat
  outcome : Except UpErr ToolResult

/-- The fixed bound passed to `asyncio.wait_for` around the upstream
forward (`timeout=30.0` in `call_tool`). -/
def toolTimeoutSeconds : Nat := 30

/-- Model of `AgentAwareMCPBridge.call_tool`.

Control flow of the source, in order: reject when no agent is bound or no
upstream group exists (before any audit event); log `call_tool`; first
permission fetch — a database failure here is outside the `try` and
propagates; on denial log a `tool_error`/`access_denied` event (warning)
and raise; inside the `try`, recompute the permitted set — on revocation
log `tool_error`/`access_revoked` (warning), and the raised `ValueError`
is then re-caught by the `except ValueError` arm which also logs a
`tool_error`/`access_denied` event before re-raising; forward with the
30-second bound — on timeout log `tool_error`/`timeout` (severity error)
and fail; on any other upstream exception log
`tool_error`/`execution_error` (severity error) and fail; on success the
usage-recording step runs inside its own `try/except` whose failure is
only written to the process logger (no audit event, the call continues),
then a `tool_result` event is logged and the content returned. -/
def call_tool (current : Option Agent) (hasUpstreamGroup : Bool) (st1 st2 : Store)
    (u : UpstreamCall) (track : Except DbErr Unit) (name : String) :
    Except BridgeError (List ContentItem) × List LogEvent :=
  if current.isNone || !hasUpstreamGroup then
    (.error .noAgentOrUpstream, [])
  else
    let logs := [{ event_type := "call_tool" : LogEvent }]
    match get_agent_tools current st1 with
    | .error e => (.error (.internalError e), logs)
    | .ok agent_tools =>
        if name ∉ agent_tools.map Tool.name then
          (.error (.permissionDenied name),
           logs ++ [{ event_type := "tool_error", error_type := some "access_denied",
                      severity := "warning" }])
        else
          match get_agent_tools current st2 with
          | .error _ =>
              (.error (.executionError name),
               logs ++ [{ event_type := "tool_error", error_type := some "execution_error",
                          severity := "error" }])
          | .ok current_agent_tools =>
              if name ∉ current_agent_tools.map Tool.name then
                (.error (.permissionRevoked name),
                 logs ++ [{ event_type := "tool_error", error_type := some "access_revoked",
                            severity := "warning" },
                          { event_type := "tool_error", error_type := some "access_denied",
                            severity := "warning" }])
              else
                if u.duration > toolTimeoutSeconds then
                  (.error (.upstreamTimeout name),
                   logs ++ [{ event_type := "tool_error", error_type := some "timeout",
                              severity := "error" }])
                else
                  match u.outcome with
                  | .error _ =>
                      (.error (.executionError name),
                       logs ++ [{ event_type := "tool_error", error_type := some "execution_error",
                                  severity := "error" }])
                  | .ok result =>
                      let trackEvents : List LogEvent :=
                        match track with
                        | .ok _ => []
                        | .error _ => []
                      (.ok result.content,
                       logs ++ trackEvents ++ [{ event_type := "tool_result" : LogEvent }])

/-- Decoded item returned by `read_resource`
(`ReadResourceContents(content, mime_type)`; base64 decoding of blob
contents is abstracted into the carried payload). -/
structure ReadResourceContents where
  content : String
  mime_type : Option String := none
  deriving DecidableEq, Repr

/-- Behaviour of one upstream resource read: whether any live session owns
the URI, and the decoded contents (or exception) the read produces. -/
structure UpstreamRead where
  hasUri : Bool
  outcome : Except UpErr (List ReadResourceContents)

/-- Model of `AgentAwareMCPBridge.read_resource`.

Single permission check only (no re-check before dispatch); the permission
denial is raised before any audit event; inside the `try`, a missing
owning session, an upstream failure, or — because it is not wrapped in its
own handler — a failure of the usage-recording step are all caught by the
one `except Exception` arm, which logs a `resource_error` (severity error)
and fails the read.  The `resource_result` success log in the source sits
after the `return` and is unreachable. -/
def read_resource (current : Option Agent) (hasUpstreamGroup : Bool) (st : Store)
    (u : UpstreamRead) (track : Except DbErr Unit) (uri : String) :
    Except BridgeError (List ReadResourceContents) × List LogEvent :=
  if current.isNone || !hasUpstreamGroup then
    (.error .noAgentOrUpstream, [])
  else
    match get_agent_resources current st with
    | .error e => (.error (.internalError e), [])
    | .ok agent_resources =>
        if uri ∉ agent_resources.map Resource.uri then
          (.error (.resourceNotPermitted uri), [])
        else
          let logs := [{ event_type := "read_resource" : LogEvent }]
          if u.hasUri then
            match u.outcome with
            | .error _ =>
                (.error (.resourceReadFailed uri),
                 logs ++ [{ event_type := "resource_error", severity := "error" }])
            | .ok decoded =>
                match track with
                | .error _ =>
                    (.error (.resourceReadFailed uri),
                     logs ++ [{ event_type := "resource_error", severity := "error" }])
                | .ok _ => (.ok decoded, logs)
          else
            (.error (.resourceReadFailed uri),
             logs ++ [{ event_type := "resource_error", severity := "error" }])

/-- Result of `get_prompt` (`mcp.types.GetPromptResult`, abstracted). -/
structure GetPromptResult where
  messages : List String := []
  deriving DecidableEq, Repr

/-- Behaviour of one upstream prompt fetch. -/
structure UpstreamPrompt where
  hasPrompt : Bool
  outcome : Except UpErr GetPromptResult

/-- Model of `AgentAwareMCPBridge.get_prompt`: same single-check pattern as
`read_resource`, no forwarding timeout; the usage-recording step is again
not wrapped, so its failure is caught by the outer `except Exception`,
logged as `prompt_error` (severity error), and fails the operation. -/
def get_prompt (current : Option Agent) (hasUpstreamGroup : Bool) (st : Store)
    (u : UpstreamPrompt) (track : Except DbErr Unit) (name : String) :
    Except BridgeError GetPromptResult × List LogEvent :=
  if current.isNone || !hasUpstreamGroup then
    (.error .noAgentOrUpstream, [])
  else
    match get_agent_prompts current st with
    | .error e => (.error (.internalError e), [])
    | .ok agent_prompts =>
        if name ∉ agent_prompts.map Prompt.name then
          (.error (.promptNotPermitted name), [])
        else
          let logs := [{ event_type := "get_prompt" : LogEvent }]
          if u.hasPrompt then
            match u.outcome with
            | .error _ =>
                (.error (.promptGetFailed name),
                 logs ++ [{ event_type := "prompt_error", severity := "error" }])
            | .ok result =>
                match track with
                | .error _ =>
                    (.error (.promptGetFailed name),
                     logs ++ [{ event_type := "prompt_error", severity := "error" }])
                | .ok _ =>
                    (.ok result, logs ++ [{ event_type := "prompt_result" : LogEvent }])
          else
            (.error (.promptGetFailed name),
             logs ++ [{ event_type := "prompt_error", severity := "error" }])

end Bridge

/-! ## Capability-server connection state (`data/models/mcp.py`, class `MCP`)

Only the columns read or written by `increment_connection` and
`decrement_connection` are carried; the timestamp columns they also touch
have no bearing on the counter/status invariant.  `connected_instances`
is an SQL `Integer`, modelled as `Int` so that non-negativity is a real
statement. -/

structure MCPState where
  connected_instances : Int
  total_connections : Int
  status : String
  deriving DecidableEq, Repr

/-- Model of `MCP.increment_connection`. -/
def MCPState.increment_connection (m : MCPState) : MCPState :=
  { m with
    connected_instances := m.connected_instances + 1
    total_connections := m.total_connections + 1
    status := if m.status ≠ "active" then "active" else m.status }

/-- Model of `MCP.decrement_connection`: decrement only when positive, then
revert the status when the count has reached zero. -/
def MCPState.decrement_connection (m : MCPState) : MCPState :=
  let n := if m.connected_instances > 0 then m.connected_instances - 1 else m.connected_instances
  { m with
    connected_instances := n
    status := if n = 0 ∧ m.status = "active" then "registered" else m.status }

/-- One connection-tracking step. -/
inductive ConnOp where
  | connect
  | disconnect
  deriving DecidableEq, Repr

def MCPState.applyOp (m : MCPState) : ConnOp → MCPState
  | .connect => m.increment_connection
  | .disconnect => m.decrement_connection

def MCPState.applyOps (m : MCPState) (ops : List ConnOp) : MCPState :=
  ops.foldl MCPState.applyOp m

/-- The documented invariant of the `MCP` model: the connection counter is
never negative and the row is `active` exactly when it is positive. -/
def MCPState.connInvariant (m : MCPState) : Prop :=
  0 ≤ m.connected_instances ∧ (m.status = "active" ↔ 0 < m.connected_instances)

/-! ## Helper lemmas -/

theorem lor_eq_zero_iff (a b : Nat) : a ||| b = 0 ↔ a = 0 ∧ b = 0 := by
  constructor
  · intro h
    have hbit : ∀ i, a.testBit i = false ∧ b.testBit i = false := by
      intro i
      have hc := congrArg (fun n => Nat.testBit n i) h
      simpa [Nat.testBit_or] using hc
    exact ⟨Nat.eq_of_testBit_eq fun i => by simp [(hbit i).1],
           Nat.eq_of_testBit_eq fun i => by simp [(hbit i).2]⟩
  · rintro ⟨rfl, rfl⟩
    rfl

theorem char_toNat_inj {a b : Char} (h : a.toNat = b.toNat) : a = b := by
  have hc := congrArg Char.ofNat h
  simpa [Char.ofNat_toNat] using hc

theorem foldl_diff_eq_zero (l : List (Char × Char)) (acc : Nat) :
    (l.foldl (fun acc p => acc ||| (p.1.toNat ^^^ p.2.toNat)) acc = 0) ↔
      (acc = 0 ∧ ∀ p ∈ l, p.1 = p.2) := by
  induction l generalizing acc with
  | nil => simp
  | cons q l ih =>
      rw [List.foldl_cons, ih, lor_eq_zero_iff]
      constructor
      · rintro ⟨⟨ha, hq⟩, hl⟩
        refine ⟨ha, ?_⟩
        intro p hp
        rcases List.mem_cons.mp hp with rfl | hp
        · exact char_toNat_inj (Nat.xor_eq_zero.mp hq)
        · exact hl p hp
      · rintro ⟨ha, h⟩
        exact ⟨⟨ha, Nat.xor_eq_zero.mpr (congrArg Char.toNat (h q (List.mem_cons_self q l)))⟩,
               fun p hp => h p (List.mem_cons_of_mem q hp)⟩

theorem list_eq_of_zip_eq (l1 l2 : List Char) (hlen : l1.length = l2.length)
    (h : ∀ p ∈ l1.zip l2, p.1 = p.2) : l1 = l2 := by
  induction l1 generalizing l2 with
  | nil =>
      cases l2 with
      | nil => rfl
      | cons b l2 => simp at hlen
  | cons a l ih =>
      cases l2 with
      | nil => simp at hlen
      | cons b l2 =>
          have hab : a = b := h (a, b) (by simp)
          have htl : l = l2 := ih l2 (by simpa using hlen) (fun p hp => h p (by simp [hp]))
          simp [hab, htl]

theorem mem_zip_self {l : List Char} {p : Char × Char} (hp : p ∈ l.zip l) : p.1 = p.2 := by
  induction l with
  | nil => simp at hp
  | cons a l ih =>
      rw [List.zip_cons_cons] at hp
      rcases List.mem_cons.mp hp with h | h
      · subst h; rfl
      · exact ih h

/-- The comparison used by `verify_secret` behaves exactly as string
equality (while structurally scanning all positions). -/
theorem compareDigest_eq_true_iff (a b : String) : compareDigest a b = true ↔ a = b := by
  cases a with | mk da =>
  cases b with | mk db =>
  unfold compareDigest
  rw [Bool.and_eq_true, beq_iff_eq, beq_iff_eq, foldl_diff_eq_zero]
  simp only [String.length_mk]
  constructor
  · rintro ⟨hlen, -, hall⟩
    exact String.ext (list_eq_of_zip_eq da db hlen hall)
  · intro h
    cases h
    exact ⟨rfl, trivial, fun p hp => mem_zip_self hp⟩

theorem compareDigest_self (a : String) : compareDigest a a = true :=
  (compareDigest_eq_true_iff a a).mpr rfl

theorem connInvariant_increment (m : MCPState) (h : m.connInvariant) :
    m.increment_connection.connInvariant := by
  obtain ⟨h0, hiff⟩ := h
  unfold MCPState.increment_connection MCPState.connInvariant
  constructor
  · simp only
    omega
  · simp only
    constructor
    · intro _
      omega
    · intro _
      split
      · rfl
      · next hact => exact not_not.mp hact

theorem connInvariant_decrement (m : MCPState) (h : m.connInvariant) :
    m.decrement_connection.connInvariant := by
  obtain ⟨h0, hiff⟩ := h
  unfold MCPState.decrement_connection MCPState.connInvariant
  dsimp only
  by_cases hpos : m.connected_instances > 0
  · rw [if_pos hpos]
    by_cases hz : m.connected_instances - 1 = 0 ∧ m.status = "active"
    · rw [if_pos hz]
      refine ⟨by omega, ?_⟩
      constructor
      · intro hra
        exact absurd hra (by decide)
      · intro hlt
        omega
    · rw [if_neg hz]
      have hact : m.status = "active" := hiff.mpr hpos
      refine ⟨by omega, ?_⟩
      constructor
      · intro _
        rcases not_and_or.mp hz with hne | hne
        · omega
        · exact absurd hact hne
      · intro _
        exact hact
  · rw [if_neg hpos]
    have hz0 : m.connected_instances = 0 := by omega
    have hnact : ¬ m.status = "active" := fun hs => by
      have := hiff.mp hs
      omega
    rw [if_neg (fun hc => hnact hc.2)]
    exact ⟨h0, hiff⟩

/-! ## Concrete fixtures used by the witness theorems -/

def sampleTool1 : Tool := { id := "t1", mcp_id := "m1", name := "alpha" }

def sampleTool2 : Tool := { id := "t2", mcp_id := "m1", name := "beta" }

def sampleResource1 : Resource := { id := "r1", mcp_id := "m1", uri := "res://x", name := "resx" }

def samplePrompt1 : Prompt := { id := "p1", mcp_id := "m1", name := "greet" }

def sampleAgent : Agent :=
  { id := "a1", client_id := "cid-1", client_secret_hash := sha256hex "s3cret",
    allowed_tool_ids := ["t1", "t3"], allowed_resource_ids := ["r1"],
    allowed_prompt_ids := ["p1"] }

/-- The same agent row after its grant lists are emptied by a concurrent
update. -/
def revokedAgent : Agent :=
  { id := "a1", client_id := "cid-1", client_secret_hash := sha256hex "s3cret" }

def sampleDb : Db :=
  { agents := [sampleAgent], tools := [sampleTool1, sampleTool2],
    resources := [sampleResource1], prompts := [samplePrompt1] }

def revokedDb : Db :=
  { agents := [revokedAgent], tools := [sampleTool1, sampleTool2],
    resources := [sampleResource1], prompts := [samplePrompt1] }

/-- A session whose every read raises. -/
def failingStore : Store :=
  { getAgent := fun _ => .error (.failure "db down")
    selectTools := fun _ => .error (.failure "db down")
    selectResources := fun _ => .error (.failure "db down")
    selectPrompts := fun _ => .error (.failure "db down") }

/-! ## Claims -/

/-- C4: for every capability-server record, across every sequence of
connect (`increment_connection`) and disconnect (`decrement_connection`)
operations starting from a state satisfying it, the invariant holds that
`connected_instances` is never negative and `status` is `"active"` iff
`connected_instances > 0`. -/
theorem C4_connection_invariant_preserved (m : MCPState) (ops : List ConnOp)
    (h : m.connInvariant) : (m.applyOps ops).connInvariant := by
  induction ops generalizing m with
  | nil => simpa [MCPState.applyOps] using h
  | cons op ops ih =>
      have hstep : (m.applyOp op).connInvariant := by
        cases op
        · exact connInvariant_increment m h
        · exact connInvariant_decrement m h
      have hrec := ih (m.applyOp op) hstep
      simpa [MCPState.applyOps, List.foldl_cons] using hrec

theorem C4_witness :
    (MCPState.applyOps { connected_instances := 0, total_connections := 0, status := "registered" }
      [ConnOp.connect, ConnOp.connect, ConnOp.disconnect, ConnOp.disconnect,
       ConnOp.disconnect]).connInvariant :=
  C4_connection_invariant_preserved _ _ (by unfold MCPState.connInvariant; decide)

/-- C1: for every agent and capability, the capability is in the list
returned by `listTools` iff its id is in the agent's (freshly re-read)
granted tool-id list and the capability is present in the live capability
catalog (the `Tool` table the bridge serves from); granted IDs with no
matching capability are silently dropped — the listing still returns
`.ok`, never an error. -/
theorem C1_list_tools_granted_and_live (db : Db) (a fresh : Agent)
    (hfresh : (Store.ofDb db).getAgent a.id = .ok (some fresh)) :
    ∃ l, Engine.list_tools (Store.ofDb db) fresh = .ok l ∧
      (∀ t : Tool, t ∈ l ↔ t.id ∈ fresh.allowed_tool_ids ∧ t ∈ db.tools) ∧
      Bridge.list_tools (some a) (Store.ofDb db) = l.map Bridge.toolDescriptor := by
  have hlist : Engine.list_tools (Store.ofDb db) fresh =
      .ok (db.tools.filter (fun t => decide (t.id ∈ fresh.allowed_tool_ids))) := by
    simp only [Engine.list_tools, Store.ofDb, Agent.tools]
    split
    · next he =>
        have h0 : fresh.allowed_tool_ids = [] := by
          cases hh : fresh.allowed_tool_ids with
          | nil => rfl
          | cons x xs => rw [hh] at he; simp at he
        simp [h0]
    · next he => rfl
  refine ⟨_, hlist, ?_, ?_⟩
  · intro t
    simp only [List.mem_filter, decide_eq_true_eq]
    tauto
  · simp only [Bridge.list_tools, Bridge.get_agent_tools, hfresh, hlist]

theorem C1_witness :
    ∃ l, Engine.list_tools (Store.ofDb sampleDb) sampleAgent = .ok l ∧
      (∀ t : Tool, t ∈ l ↔ t.id ∈ sampleAgent.allowed_tool_ids ∧ t ∈ sampleDb.tools) ∧
      Bridge.list_tools (some sampleAgent) (Store.ofDb sampleDb) =
        l.map Bridge.toolDescriptor :=
  C1_list_tools_granted_and_live sampleDb sampleAgent sampleAgent rfl

/-- C6: `list_tools`, `list_resources` and `list_prompts` never propagate
an internal failure to the caller: whenever the internal computation
raises, each returns the empty list. -/
theorem C6_listing_swallows_internal_failures :
    (∀ (current : Option Agent) (st : Store) (e : DbErr),
       Bridge.get_agent_tools current st = .error e →
         Bridge.list_tools current st = []) ∧
    (∀ (current : Option Agent) (st : Store) (e : DbErr),
       Bridge.get_agent_resources current st = .error e →
         Bridge.list_resources current st = []) ∧
    (∀ (current : Option Agent) (st : Store) (e : DbErr),
       Bridge.get_agent_prompts current st = .error e →
         Bridge.list_prompts current st = []) := by
  refine ⟨?_, ?_, ?_⟩
  · intro current st e h
    simp [Bridge.list_tools, h]
  · intro current st e h
    simp [Bridge.list_resources, h]
  · intro current st e h
    simp [Bridge.list_prompts, h]

theorem C6_witness :
    Bridge.list_tools (some sampleAgent) failingStore = [] ∧
    Bridge.list_resources (some sampleAgent) failingStore = [] ∧
    Bridge.list_prompts (some sampleAgent) failingStore = [] :=
  ⟨C6_listing_swallows_internal_failures.1 (some sampleAgent) failingStore (.failure "db down") rfl,
   C6_listing_swallows_internal_failures.2.1 (some sampleAgent) failingStore (.failure "db down") rfl,
   C6_listing_swallows_internal_failures.2.2 (some sampleAgent) failingStore (.failure "db down") rfl⟩

/-- C10: the failure raised by `authenticate` for an unknown client_id is
the very same error value — `NotFoundError("Agent", client_id)` — as the
failure raised when the client_id exists but the secret's hash does not
match, so the two failure modes are indistinguishable from the returned
error alone. -/
theorem C10_auth_failures_identical (db : Db) (cid secret : String) :
    (Engine.find_agent_by_client_id db cid = none →
       Engine.authenticate db cid secret = .error (.notFound "Agent" cid)) ∧
    (∀ a, Engine.find_agent_by_client_id db cid = some a →
       a.verify_secret secret = false →
       Engine.authenticate db cid secret = .error (.notFound "Agent" cid)) := by
  constructor
  · intro h
    unfold Engine.authenticate
    rw [h]
  · intro a hfind hv
    unfold Engine.authenticate
    rw [hfind]
    dsimp only
    rw [hv]
    simp

set_option maxRecDepth 20000 in
theorem C10_witness :
    Engine.authenticate sampleDb "cid-unknown" "s3cret" =
      .error (.notFound "Agent" "cid-unknown") ∧
    Engine.authenticate sampleDb "cid-1" "wrong" =
      .error (.notFound "Agent" "cid-1") :=
  ⟨(C10_auth_failures_identical sampleDb "cid-unknown" "s3cret").1 rfl,
   (C10_auth_failures_identical sampleDb "cid-1" "wrong").2 sampleAgent rfl (by decide)⟩

/-- C3: `authenticate(client_id, secret)` succeeds and returns the agent
row iff an agent with that client_id exists and the SHA-256 hash of the
supplied secret equals the stored hash; otherwise it fails with the
authentication failure `NotFoundError("Agent", client_id)`.  The hash
comparison is `compareDigest`, which scans all positions with no early
exit (the structure of the source's constant-time `hmac.compare_digest`;
wall-clock timing itself is outside this model) and agrees exactly with
equality. -/
theorem C3_authenticate_correct (db : Db) (cid secret : String) :
    ((∃ a, Engine.authenticate db cid secret = .ok a) ↔
       (∃ a, Engine.find_agent_by_client_id db cid = some a ∧
          Engine.hash_secret secret = a.client_secret_hash)) ∧
    (∀ a, Engine.authenticate db cid secret = .ok a →
       Engine.find_agent_by_client_id db cid = some a) ∧
    ((∀ a, Engine.authenticate db cid secret ≠ .ok a) →
       Engine.authenticate db cid secret = .error (.notFound "Agent" cid)) ∧
    (∀ x y, compareDigest x y = true ↔ x = y) := by
  cases hfind : Engine.find_agent_by_client_id db cid with
  | none =>
      unfold Engine.authenticate
      rw [hfind]
      dsimp only
      refine ⟨?_, ?_, ?_, fun x y => compareDigest_eq_true_iff x y⟩
      · constructor
        · rintro ⟨a, ha⟩
          simp at ha
        · rintro ⟨a, ha, -⟩
          simp at ha
      · intro a ha
        simp at ha
      · intro _
        rfl
  | some ag =>
      unfold Engine.authenticate
      rw [hfind]
      dsimp only
      by_cases hv : ag.verify_secret secret = true
      · rw [if_pos hv]
        have hhash : Engine.hash_secret secret = ag.client_secret_hash :=
          (compareDigest_eq_true_iff _ _).mp hv
        refine ⟨?_, ?_, ?_, fun x y => compareDigest_eq_true_iff x y⟩
        · constructor
          · intro _
            exact ⟨ag, rfl, hhash⟩
          · intro _
            exact ⟨ag, rfl⟩
        · intro a ha
          injection ha with h
          rw [h]
        · intro hno
          exact absurd rfl (hno ag)
      · rw [if_neg hv]
        have hnh : ¬ Engine.hash_secret secret = ag.client_secret_hash :=
          fun hh => hv ((compareDigest_eq_true_iff _ _).mpr hh)
        refine ⟨?_, ?_, ?_, fun x y => compareDigest_eq_true_iff x y⟩
        · constructor
          · rintro ⟨a, ha⟩
            simp at ha
          · rintro ⟨a, ha, hh⟩
            injection ha with h
            subst h
            exact absurd hh hnh
        · intro a ha
          simp at ha
        · intro _
          rfl

theorem C3_witness :
    ∃ a, Engine.authenticate sampleDb "cid-1" "s3cret" = .ok a :=
  (C3_authenticate_correct sampleDb "cid-1" "s3cret").1.mpr ⟨sampleAgent, rfl, rfl⟩

/-- C2: if the agent's grant contains tool `name` at `call_tool`'s first
permission check but not at the second check immediately before dispatch,
the call fails with the revoked-access error (not the denied error), the
upstream call is not forwarded (the outcome is independent of the upstream
behaviour and of the usage recorder), and a `tool_error` audit event of
kind `access_revoked` — a distinct error kind from `access_denied` — is
logged. -/
theorem C2_revocation_window (a : Agent) (st1 st2 : Store) (name : String)
    (l1 l2 : List Tool)
    (h1 : Bridge.get_agent_tools (some a) st1 = .ok l1)
    (h1m : name ∈ l1.map Tool.name)
    (h2 : Bridge.get_agent_tools (some a) st2 = .ok l2)
    (h2m : name ∉ l2.map Tool.name) :
    ∀ (u u' : Bridge.UpstreamCall) (track track' : Except DbErr Unit),
      Bridge.call_tool (some a) true st1 st2 u track name =
        Bridge.call_tool (some a) true st1 st2 u' track' name ∧
      (Bridge.call_tool (some a) true st1 st2 u track name).1 =
        .error (.permissionRevoked name) ∧
      (Bridge.call_tool (some a) true st1 st2 u track name).1 ≠
        .error (.permissionDenied name) ∧
      ({ event_type := "tool_error", error_type := some "access_revoked",
         severity := "warning" } : Bridge.LogEvent) ∈
        (Bridge.call_tool (some a) true st1 st2 u track name).2 ∧
      ("access_revoked" : String) ≠ "access_denied" := by
  have hcomp : ∀ (u : Bridge.UpstreamCall) (track : Except DbErr Unit),
      Bridge.call_tool (some a) true st1 st2 u track name =
        (.error (.permissionRevoked name),
         [{ event_type := "call_tool" },
          { event_type := "tool_error", error_type := some "access_revoked",
            severity := "warning" },
          { event_type := "tool_error", error_type := some "access_denied",
            severity := "warning" }]) := by
    intro u track
    simp [Bridge.call_tool, h1, h2, h1m, h2m]
  intro u u' track track'
  refine ⟨?_, ?_, ?_, ?_, by decide⟩
  · rw [hcomp u track, hcomp u' track']
  · rw [hcomp u track]
  · rw [hcomp u track]
    simp
  · rw [hcomp u track]
    simp

theorem C2_witness :
    Bridge.call_tool (some sampleAgent) true (Store.ofDb sampleDb) (Store.ofDb revokedDb)
        { duration := 0, outcome := .error (.failure "unused") } (.ok ()) "alpha" =
      Bridge.call_tool (some sampleAgent) true (Store.ofDb sampleDb) (Store.ofDb revokedDb)
        { duration := 31, outcome := .ok { content := [] } }
        (.error (.failure "tracker down")) "alpha" ∧
    (Bridge.call_tool (some sampleAgent) true (Store.ofDb sampleDb) (Store.ofDb revokedDb)
        { duration := 0, outcome := .error (.failure "unused") } (.ok ()) "alpha").1 =
      .error (.permissionRevoked "alpha") ∧
    (Bridge.call_tool (some sampleAgent) true (Store.ofDb sampleDb) (Store.ofDb revokedDb)
        { duration := 0, outcome := .error (.failure "unused") } (.ok ()) "alpha").1 ≠
      .error (.permissionDenied "alpha") ∧
    ({ event_type := "tool_error", error_type := some "access_revoked",
       severity := "warning" } : Bridge.LogEvent) ∈
      (Bridge.call_tool (some sampleAgent) true (Store.ofDb sampleDb) (Store.ofDb revokedDb)
        { duration := 0, outcome := .error (.failure "unused") } (.ok ()) "alpha").2 ∧
    ("access_revoked" : String) ≠ "access_denied" :=
  C2_revocation_window sampleAgent (Store.ofDb sampleDb) (Store.ofDb revokedDb) "alpha"
    [sampleTool1] [] rfl (by decide) rfl (by decide)
    { duration := 0, outcome := .error (.failure "unused") }
    { duration := 31, outcome := .ok { content := [] } }
    (.ok ()) (.error (.failure "tracker down"))

/-- C7: for every permitted tool call whose upstream forward does not
complete within the fixed bound, `call_tool` fails with the upstream
timeout error and records a `tool_error` audit event of kind `timeout`
with severity `error`; the bound applied to the forward is exactly 30
seconds. -/
theorem C7_tool_call_timeout (a : Agent) (st1 st2 : Store) (name : String)
    (l1 l2 : List Tool)
    (h1 : Bridge.get_agent_tools (some a) st1 = .ok l1)
    (h1m : name ∈ l1.map Tool.name)
    (h2 : Bridge.get_agent_tools (some a) st2 = .ok l2)
    (h2m : name ∈ l2.map Tool.name)
    (u : Bridge.UpstreamCall) (track : Except DbErr Unit)
    (hu : u.duration > Bridge.toolTimeoutSeconds) :
    (Bridge.call_tool (some a) true st1 st2 u track name).1 =
      .error (.upstreamTimeout name) ∧
    ({ event_type := "tool_error", error_type := some "timeout",
       severity := "error" } : Bridge.LogEvent) ∈
      (Bridge.call_tool (some a) true st1 st2 u track name).2 ∧
    Bridge.toolTimeoutSeconds = 30 := by
  have hcomp : Bridge.call_tool (some a) true st1 st2 u track name =
      (.error (.upstreamTimeout name),
       [{ event_type := "call_tool" },
        { event_type := "tool_error", error_type := some "timeout",
          severity := "error" }]) := by
    simp [Bridge.call_tool, h1, h2, h1m, h2m, hu]
  rw [hcomp]
  exact ⟨rfl, by simp, rfl⟩

theorem C7_witness :
    (Bridge.call_tool (some sampleAgent) true (Store.ofDb sampleDb) (Store.ofDb sampleDb)
        { duration := 31, outcome := .ok { content := [.text "late"] } } (.ok ()) "alpha").1 =
      .error (.upstreamTimeout "alpha") ∧
    ({ event_type := "tool_error", error_type := some "timeout",
       severity := "error" } : Bridge.LogEvent) ∈
      (Bridge.call_tool (some sampleAgent) true (Store.ofDb sampleDb) (Store.ofDb sampleDb)
        { duration := 31, outcome := .ok { content := [.text "late"] } } (.ok ()) "alpha").2 ∧
    Bridge.toolTimeoutSeconds = 30 :=
  C7_tool_call_timeout sampleAgent (Store.ofDb sampleDb) (Store.ofDb sampleDb) "alpha"
    [sampleTool1] [sampleTool1] rfl (by decide) rfl (by decide)
    { duration := 31, outcome := .ok { content := [.text "late"] } } (.ok ()) (by decide)

/-- Upstream read that succeeds with one decoded text item. -/
def okUpstreamRead : Bridge.UpstreamRead :=
  { hasUri := true,
    outcome := .ok [{ content := "hello", mime_type := some "text/plain" }] }

/-- Upstream prompt fetch that succeeds. -/
def okUpstreamPrompt : Bridge.UpstreamPrompt :=
  { hasPrompt := true, outcome := .ok { messages := ["hi"] } }

/-- C5 counterexample: in `read_resource` and `get_prompt` a failure of
the best-effort usage-recording step after a successful upstream result
does change the operation's outcome — the identical upstream behaviour
yields success when recording succeeds and an error when recording fails,
so the claim is false as stated for these two operations. -/
theorem C5_counterexample :
    (Bridge.read_resource (some sampleAgent) true (Store.ofDb sampleDb) okUpstreamRead
        (.error (.failure "usage insert failed")) "res://x").1 =
      .error (.resourceReadFailed "res://x") ∧
    (Bridge.read_resource (some sampleAgent) true (Store.ofDb sampleDb) okUpstreamRead
        (.ok ()) "res://x").1 =
      .ok [{ content := "hello", mime_type := some "text/plain" }] ∧
    (Bridge.get_prompt (some sampleAgent) true (Store.ofDb sampleDb) okUpstreamPrompt
        (.error (.failure "usage insert failed")) "greet").1 =
      .error (.promptGetFailed "greet") ∧
    (Bridge.get_prompt (some sampleAgent) true (Store.ofDb sampleDb) okUpstreamPrompt
        (.ok ()) "greet").1 =
      .ok { messages := ["hi"] } := by
  exact ⟨rfl, rfl, rfl, rfl⟩

/-- C5 (amended): in `call_tool` a failure of the best-effort
usage-recording step after a successful upstream result never changes the
outcome — the caller receives the content and a `tool_result` event is
logged whatever the recording outcome; in `read_resource` and
`get_prompt`, by contrast, a recording failure after a successful
upstream result is caught by the operation's outer exception handler and
fails the operation. -/
theorem C5_amended_recording_nonfatal_only_in_call_tool :
    (∀ (a : Agent) (st1 st2 : Store) (name : String) (l1 l2 : List Tool)
       (u : Bridge.UpstreamCall) (r : Bridge.ToolResult) (track : Except DbErr Unit),
       Bridge.get_agent_tools (some a) st1 = .ok l1 →
       name ∈ l1.map Tool.name →
       Bridge.get_agent_tools (some a) st2 = .ok l2 →
       name ∈ l2.map Tool.name →
       ¬ u.duration > Bridge.toolTimeoutSeconds →
       u.outcome = .ok r →
       Bridge.call_tool (some a) true st1 st2 u track name =
         (.ok r.content,
          [{ event_type := "call_tool" }, { event_type := "tool_result" }])) ∧
    (∀ (a : Agent) (st : Store) (u : Bridge.UpstreamRead) (uri : String)
       (rs : List Resource) (contents : List Bridge.ReadResourceContents) (e : DbErr),
       Bridge.get_agent_resources (some a) st = .ok rs →
       uri ∈ rs.map Resource.uri →
       u.hasUri = true →
       u.outcome = .ok contents →
       (Bridge.read_resource (some a) true st u (.error e) uri).1 =
         .error (.resourceReadFailed uri)) ∧
    (∀ (a : Agent) (st : Store) (u : Bridge.UpstreamPrompt) (name : String)
       (ps : List Prompt) (r : Bridge.GetPromptResult) (e : DbErr),
       Bridge.get_agent_prompts (some a) st = .ok ps →
       name ∈ ps.map Prompt.name →
       u.hasPrompt = true →
       u.outcome = .ok r →
       (Bridge.get_prompt (some a) true st u (.error e) name).1 =
         .error (.promptGetFailed name)) := by
  refine ⟨?_, ?_, ?_⟩
  · intro a st1 st2 name l1 l2 u r track h1 h1m h2 h2m hd ho
    cases track with
    | ok v => simp [Bridge.call_tool, h1, h2, h1m, h2m, hd, ho]
    | error e => simp [Bridge.call_tool, h1, h2, h1m, h2m, hd, ho]
  · intro a st u uri rs contents e hres hmem hhas ho
    simp [Bridge.read_resource, hres, hmem, hhas, ho]
  · intro a st u name ps r e hps hmem hhas ho
    simp [Bridge.get_prompt, hps, hmem, hhas, ho]

theorem C5_witness :
    Bridge.call_tool (some sampleAgent) true (Store.ofDb sampleDb) (Store.ofDb sampleDb)
        { duration := 1, outcome := .ok { content := [.text "fine"] } }
        (.error (.failure "usage insert failed")) "alpha" =
      (.ok [.text "fine"],
       [{ event_type := "call_tool" }, { event_type := "tool_result" }]) ∧
    (Bridge.read_resource (some sampleAgent) true (Store.ofDb sampleDb) okUpstreamRead
        (.error (.failure "usage insert failed")) "res://x").1 =
      .error (.resourceReadFailed "res://x") ∧
    (Bridge.get_prompt (some sampleAgent) true (Store.ofDb sampleDb) okUpstreamPrompt
        (.error (.failure "usage insert failed")) "greet").1 =
      .error (.promptGetFailed "greet") :=
  ⟨C5_amended_recording_nonfatal_only_in_call_tool.1 sampleAgent
     (Store.ofDb sampleDb) (Store.ofDb sampleDb) "alpha" [sampleTool1] [sampleTool1]
     { duration := 1, outcome := .ok { content := [.text "fine"] } }
     { content := [.text "fine"] } (.error (.failure "usage insert failed"))
     rfl (by decide) rfl (by decide) (by decide) rfl,
   C5_amended_recording_nonfatal_only_in_call_tool.2.1 sampleAgent
     (Store.ofDb sampleDb) okUpstreamRead "res://x" [sampleResource1]
     [{ content := "hello", mime_type := some "text/plain" }]
     (.failure "usage insert failed") rfl (by decide) rfl rfl,
   C5_amended_recording_nonfatal_only_in_call_tool.2.2 sampleAgent
     (Store.ofDb sampleDb) okUpstreamPrompt "greet" [samplePrompt1]
     { messages := ["hi"] } (.failure "usage insert failed") rfl (by decide) rfl rfl⟩

/-- C8: a successful `register` persists exactly the explicit row whose
only secret-derived column is the SHA-256 hash of the plaintext secret
(one-wayness of SHA-256 is the cryptographic reason the plaintext is not
retrievable from that hash; the row itself provably contains nothing else
derived from the secret), returns the plaintext once, and authenticating
with the returned plaintext and new client_id succeeds. -/
theorem C8_register_authenticate_roundtrip (db : Db) (payload : Engine.AgentCreate)
    (agent_id cid secret : String) (db' : Db) (ag : Agent) (s : String)
    (hfresh : ∀ a ∈ db.agents, a.client_id ≠ cid)
    (hreg : Engine.register db payload agent_id cid secret = .ok (db', ag, s)) :
    s = secret ∧
    Engine.authenticate db' cid secret = .ok ag ∧
    ag.client_secret_hash = Engine.hash_secret secret ∧
    ag = { id := agent_id, client_id := cid,
           client_secret_hash := Engine.hash_secret secret,
           name := payload.name, description := payload.description,
           allowed_tool_ids := payload.tool_ids,
           allowed_resource_ids := payload.resource_ids,
           allowed_prompt_ids := payload.prompt_ids } ∧
    db'.agents = db.agents ++ [ag] := by
  unfold Engine.register at hreg
  cases hv : Engine.verify_capability_ids db payload with
  | error e =>
      rw [hv] at hreg
      simp at hreg
  | ok v =>
      rw [hv] at hreg
      dsimp only at hreg
      injection hreg with h
      injection h with hdb h2
      injection h2 with hag hs
      subst hdb
      subst hag
      subst hs
      refine ⟨rfl, ?_, rfl, rfl, rfl⟩
      have hverify :
          (⟨agent_id, cid, Engine.hash_secret secret, payload.name, payload.description,
            payload.tool_ids, payload.resource_ids, payload.prompt_ids⟩ : Agent).verify_secret
              secret = true := by
        unfold Agent.verify_secret
        exact compareDigest_self (sha256hex secret)
      have hfind :
          Engine.find_agent_by_client_id
            { db with agents := db.agents ++
                [⟨agent_id, cid, Engine.hash_secret secret, payload.name, payload.description,
                  payload.tool_ids, payload.resource_ids, payload.prompt_ids⟩] } cid =
            some ⟨agent_id, cid, Engine.hash_secret secret, payload.name, payload.description,
                  payload.tool_ids, payload.resource_ids, payload.prompt_ids⟩ := by
        unfold Engine.find_agent_by_client_id
        dsimp only
        rw [List.find?_append]
        have hnone : db.agents.find? (fun a => a.client_id == cid) = none := by
          rw [List.find?_eq_none]
          intro a ha
          simpa using hfresh a ha
        rw [hnone]
        simp
      unfold Engine.authenticate
      rw [hfind]
      dsimp only
      rw [if_pos hverify]

theorem C8_witness :
    ("secret9" : String) = "secret9" ∧
    Engine.authenticate
        { sampleDb with agents := sampleDb.agents ++
            [⟨"a9", "cid-9", Engine.hash_secret "secret9", none, none, [], [], []⟩] }
        "cid-9" "secret9" =
      .ok ⟨"a9", "cid-9", Engine.hash_secret "secret9", none, none, [], [], []⟩ ∧
    (⟨"a9", "cid-9", Engine.hash_secret "secret9", none, none, [], [], []⟩ : Agent).client_secret_hash =
      Engine.hash_secret "secret9" ∧
    (⟨"a9", "cid-9", Engine.hash_secret "secret9", none, none, [], [], []⟩ : Agent) =
      { id := "a9", client_id := "cid-9",
        client_secret_hash := Engine.hash_secret "secret9",
        name := none, description := none,
        allowed_tool_ids := [], allowed_resource_ids := [], allowed_prompt_ids := [] } ∧
    ({ sampleDb with agents := sampleDb.agents ++
         [⟨"a9", "cid-9", Engine.hash_secret "secret9", none, none, [], [], []⟩] } : Db).agents =
      sampleDb.agents ++ [⟨"a9", "cid-9", Engine.hash_secret "secret9", none, none, [], [], []⟩] :=
  C8_register_authenticate_roundtrip sampleDb {} "a9" "cid-9" "secret9"
    { sampleDb with agents := sampleDb.agents ++
        [⟨"a9", "cid-9", Engine.hash_secret "secret9", none, none, [], [], []⟩] }
    ⟨"a9", "cid-9", Engine.hash_secret "secret9", none, none, [], [], []⟩ "secret9"
    (by decide) rfl

theorem resolve_of_filter_nil {α : Type} (rows : List α) (f : α → String) (ids : List String)
    (h : ids.filter (fun i => decide (i ∉ (rows.filter (fun t => decide (f t ∈ ids))).map f)) = []) :
    ∀ i ∈ ids, ∃ t ∈ rows, f t = i := by
  intro i hi
  by_cases hmem : i ∈ (rows.filter (fun t => decide (f t ∈ ids))).map f
  · obtain ⟨t, ht, hfi⟩ := List.mem_map.mp hmem
    exact ⟨t, (List.mem_filter.mp ht).1, hfi⟩
  · exfalso
    have hin : i ∈ ids.filter
        (fun i => decide (i ∉ (rows.filter (fun t => decide (f t ∈ ids))).map f)) :=
      List.mem_filter.mpr ⟨hi, by simpa using hmem⟩
    rw [h] at hin
    simp at hin

theorem kind_check_ok {ids found : List String} {next : Except EngineError Unit} {msg : String}
    (h : (if !ids.isEmpty && !(ids.filter (fun i => decide (i ∉ found))).isEmpty
          then Except.error (.databaseError msg) else next) = .ok ()) :
    ids.filter (fun i => decide (i ∉ found)) = [] ∧ next = .ok () := by
  split at h
  · simp at h
  · next hc =>
      refine ⟨?_, h⟩
      by_cases hids : ids.isEmpty
      · have h0 : ids = [] := by
          cases hh : ids with
          | nil => rfl
          | cons x xs => rw [hh] at hids; simp at hids
        rw [h0]
        rfl
      · by_cases hm : (ids.filter (fun i => decide (i ∉ found))).isEmpty
        · cases hh : ids.filter (fun i => decide (i ∉ found)) with
          | nil => rfl
          | cons x xs => rw [hh] at hm; simp at hm
        · exfalso
          apply hc
          rw [Bool.and_eq_true, Bool.not_eq_true', Bool.not_eq_true']
          exact ⟨by simpa using hids, by simpa using hm⟩

/-- Success of `_verify_capability_ids` means every supplied ID resolves
to an existing capability row of the matching kind. -/
theorem verify_ok_resolves (db : Db) (payload : Engine.AgentCreate)
    (h : Engine.verify_capability_ids db payload = .ok ()) :
    (∀ i ∈ payload.tool_ids, ∃ t ∈ db.tools, t.id = i) ∧
    (∀ i ∈ payload.resource_ids, ∃ r ∈ db.resources, r.id = i) ∧
    (∀ i ∈ payload.prompt_ids, ∃ p ∈ db.prompts, p.id = i) := by
  unfold Engine.verify_capability_ids at h
  dsimp only at h
  obtain ⟨h1, h⟩ := kind_check_ok h
  obtain ⟨h2, h⟩ := kind_check_ok h
  obtain ⟨h3, -⟩ := kind_check_ok h
  exact ⟨resolve_of_filter_nil db.tools Tool.id payload.tool_ids h1,
         resolve_of_filter_nil db.resources Resource.id payload.resource_ids h2,
         resolve_of_filter_nil db.prompts Prompt.id payload.prompt_ids h3⟩

/-- C9: when an update payload supplies a grant list, `update` replaces
that list wholesale (never merging with the existing list) after
re-validating that every supplied ID resolves to an existing capability;
every field whose update value is not supplied (`None`) — including
fields with no update slot at all — is left unchanged. -/
theorem C9_update_replaces_wholesale (db : Db) (agent : Agent)
    (u : Engine.AgentUpdate) (ag' : Agent)
    (hok : Engine.update db agent u = .ok ag') :
    (∀ l, u.tool_ids = some l →
       ag'.allowed_tool_ids = l ∧ ∀ i ∈ l, ∃ t ∈ db.tools, t.id = i) ∧
    (u.tool_ids = none → ag'.allowed_tool_ids = agent.allowed_tool_ids) ∧
    (∀ l, u.resource_ids = some l →
       ag'.allowed_resource_ids = l ∧ ∀ i ∈ l, ∃ r ∈ db.resources, r.id = i) ∧
    (u.resource_ids = none → ag'.allowed_resource_ids = agent.allowed_resource_ids) ∧
    (∀ l, u.prompt_ids = some l →
       ag'.allowed_prompt_ids = l ∧ ∀ i ∈ l, ∃ p ∈ db.prompts, p.id = i) ∧
    (u.prompt_ids = none → ag'.allowed_prompt_ids = agent.allowed_prompt_ids) ∧
    (∀ n, u.name = some n → ag'.name = some n) ∧
    (u.name = none → ag'.name = agent.name) ∧
    (∀ d, u.description = some d → ag'.description = some d) ∧
    (u.description = none → ag'.description = agent.description) ∧
    ag'.id = agent.id ∧ ag'.client_id = agent.client_id ∧
    ag'.client_secret_hash = agent.client_secret_hash := by
  unfold Engine.update at hok
  dsimp only at hok
  split at hok
  · simp at hok
  · next v hval =>
      injection hok with h
      subst h
      have hresolve :
          (u.tool_ids.isSome || u.resource_ids.isSome || u.prompt_ids.isSome) = true →
          (∀ i ∈ u.tool_ids.getD [], ∃ t ∈ db.tools, t.id = i) ∧
          (∀ i ∈ u.resource_ids.getD [], ∃ r ∈ db.resources, r.id = i) ∧
          (∀ i ∈ u.prompt_ids.getD [], ∃ p ∈ db.prompts, p.id = i) := by
        intro hcond
        rw [if_pos hcond] at hval
        cases v
        exact verify_ok_resolves db _ hval
      refine ⟨?_, ?_, ?_, ?_, ?_, ?_, ?_, ?_, ?_, ?_, rfl, rfl, rfl⟩
      · intro l hl
        have hres := hresolve (by rw [hl]; simp)
        constructor
        · simp [hl]
        · have := hres.1
          rw [hl] at this
          simpa using this
      · intro hl
        simp [hl]
      · intro l hl
        have hres := hresolve (by rw [hl]; simp)
        constructor
        · simp [hl]
        · have := hres.2.1
          rw [hl] at this
          simpa using this
      · intro hl
        simp [hl]
      · intro l hl
        have hres := hresolve (by rw [hl]; simp)
        constructor
        · simp [hl]
        · have := hres.2.2
          rw [hl] at this
          simpa using this
      · intro hl
        simp [hl]
      · intro n hn
        simp [hn]
      · intro hn
        simp [hn]
      · intro d hd
        simp [hd]
      · intro hd
        simp [hd]

/-- The fixture agent after the update `{name := "renamed", tool_ids := ["t2"]}`. -/
def updatedAgent : Agent :=
  { id := "a1", client_id := "cid-1", client_secret_hash := sha256hex "s3cret",
    name := some "renamed", allowed_tool_ids := ["t2"],
    allowed_resource_ids := ["r1"], allowed_prompt_ids := ["p1"] }

theorem C9_witness :
    updatedAgent.allowed_tool_ids = ["t2"] ∧
    updatedAgent.allowed_resource_ids = sampleAgent.allowed_resource_ids ∧
    updatedAgent.allowed_prompt_ids = sampleAgent.allowed_prompt_ids ∧
    updatedAgent.name = some "renamed" ∧
    updatedAgent.description = sampleAgent.description ∧
    updatedAgent.client_secret_hash = sampleAgent.client_secret_hash ∧
    (∀ i ∈ ["t2"], ∃ t ∈ sampleDb.tools, t.id = i) := by
  have h := C9_update_replaces_wholesale sampleDb sampleAgent
    { name := some "renamed", tool_ids := some ["t2"] } updatedAgent rfl
  obtain ⟨ht, htn, hr, hrn, hp, hpn, hm, hmn, hd, hdn, hid, hcid, hsh⟩ := h
  exact ⟨(ht ["t2"] rfl).1, hrn rfl, hpn rfl, hm "renamed" rfl, hdn rfl, hsh,
         (ht ["t2"] rfl).2⟩

end AgenticTrust
